import Mathlib

/-!
Verification development for the qfind file-name search engine
(trigram inverted index, feed-forward Bloom pair, path trie, Golomb-Rice
posting-list compression, LSM-style update queue).

Each C function relevant to the frozen claims is shallowly embedded as an
executable Lean definition; machine integers are modelled as `Nat` with
explicit wrap-around (`% 2^32`, `% 256`) where the C type makes overflow
observable.  External collaborators (the xxhash hash family, the zstd
entropy coder, the float relevance score) are parameters of the model:
theorems quantify over them.
-/

/-! ### Generic list helpers -/

/-- Running prefix sums with 32-bit wrap-around: models the
`file_id = prev_id + delta; prev_id = file_id` accumulation of the
posting-list decoder (src/search.c, `search_worker`). -/
def cumSumsGo : Nat → List Nat → List Nat
  | _, [] => []
  | prev, d :: ds => ((prev + d) % 2 ^ 32) :: cumSumsGo ((prev + d) % 2 ^ 32) ds

/-- Prefix sums of a delta list starting from 0. -/
def cumSums (l : List Nat) : List Nat := cumSumsGo 0 l

/-- Drop adjacent duplicate elements of a list. -/
def dedupAdj : List Nat → List Nat
  | [] => []
  | [x] => [x]
  | x :: y :: rest => if x = y then dedupAdj (y :: rest) else x :: dedupAdj (y :: rest)

/-- Boolean test that a list is strictly ascending as unsigned integers. -/
def strictAsc : List Nat → Bool
  | [] => true
  | [_] => true
  | x :: y :: rest => decide (x < y) && strictAsc (y :: rest)

/-- Insert `x` into a list that is sorted with respect to the comparator
`le`, placing `x` before the first element `y` with `le x y`. -/
def insertLe (le : Nat → Nat → Bool) (x : Nat) : List Nat → List Nat
  | [] => [x]
  | y :: ys => if le x y then x :: y :: ys else y :: insertLe le x ys

/-- Comparator-based insertion sort.  Models `qsort` for inputs on which
the comparator determines the output order (all the inputs used below). -/
def sortLe (le : Nat → Nat → Bool) (l : List Nat) : List Nat :=
  l.foldr (insertLe le) []

/-- Lexicographic strict order on byte lists, as computed by `memcmp`
over buffers of equal length. -/
def bytesLt : List Nat → List Nat → Bool
  | [], [] => false
  | [], _ :: _ => true
  | _ :: _, [] => false
  | a :: as, b :: bs => if a < b then true else if b < a then false else bytesLt as bs

/-- The four bytes of a `uint32_t` value in little-endian order (the byte
order of the x86 hosts the Makefile's `-march=native` build targets). -/
def leBytes32 (n : Nat) : List Nat :=
  [n % 256, n / 256 % 256, n / 65536 % 256, n / 16777216 % 256]

/-- Comparator passed to `qsort` in `compress_posting_lists`
(src/unnamed/part_001 line 278): `memcmp` applied to the little-endian
byte representations of two `uint32_t` values.  `memcmpLe a b` holds when
the sort may place `a` before `b`. -/
def memcmpLe (a b : Nat) : Bool := ! bytesLt (leBytes32 b) (leBytes32 a)

/-- The posting-list sort performed by step 1 of
`compress_posting_lists` (src/unnamed/part_001 lines 278-279):
`qsort(entry->deltas, entry->count, sizeof(uint32_t), memcmp)`.
Note the source has no duplicate-removal step. -/
def commit_sort (l : List Nat) : List Nat := sortLe memcmpLe l

/-- Numeric ascending comparator. -/
def natLe (a b : Nat) : Bool := decide (a ≤ b)

/-- Numeric ascending sort (used only by the spec-side definition below). -/
def sortAsc (l : List Nat) : List Nat := sortLe natLe l

/-- Modelled from the spec: "Sort each list ascending; drop adjacent
duplicates" (spec section 4.4 step 1).  This is the specification-side
definition used to compare against the source's `commit_sort`. -/
def spec_sort_unique (l : List Nat) : List Nat := dedupAdj (sortAsc l)

/-- Delta coding of step 2 of `compress_posting_lists`
(src/unnamed/part_001 lines 281-286): each element is replaced by its
difference with the previous original element, with `uint32_t`
wrap-around on underflow.  Inputs are assumed `< 2^32` as in the C. -/
def delta_encode_go : Nat → List Nat → List Nat
  | _, [] => []
  | prev, x :: xs => ((x + 2 ^ 32 - prev) % 2 ^ 32) :: delta_encode_go x xs

/-- Delta coding starting from the implicit previous value 0. -/
def delta_encode (l : List Nat) : List Nat := delta_encode_go 0 l

/-! ### Golomb-Rice coding

Encoder from src/unnamed/part_001 (`calculate_golomb_param`,
`golomb_encode_scalar`); decoder from src/search.c
(`gr_decoder_init` / `gr_decode_next`, lines 221-261). -/

/-- Fuel-driven floor of the base-2 logarithm (`⌊log2 n⌋`, 0 for
`n < 2`); the fuel `n` dominates the number of halvings. -/
def natLog2F : Nat → Nat → Nat
  | 0, _ => 0
  | fuel + 1, n => if 2 ≤ n then natLog2F fuel (n / 2) + 1 else 0

/-- Floor of the base-2 logarithm. -/
def natLog2 (n : Nat) : Nat := natLog2F n n

/-- Round-to-nearest base-2 logarithm of a positive natural number:
models `(uint8_t)(log2(n) + 0.5)` of the C (truncation of
`log2 n + 1/2`; since `log2 n` is either an integer or irrational the
result is exactly the nearest integer, and
`(natLog2 (n*n) + 1) / 2 = ⌊(⌊2*log2 n⌋ + 1) / 2⌋ = ⌊log2 n + 1/2⌋`). -/
def natLog2Round (n : Nat) : Nat := (natLog2 (n * n) + 1) / 2

/-- Per-list Golomb-Rice parameter, from `calculate_golomb_param`
(src/unnamed/part_001 lines 84-93): 4 for an empty list, otherwise the
rounded base-2 log of the mean delta (integer division as in the C),
floored at 1 by `MAX(1, average)`. -/
def calculate_golomb_param (deltas : List Nat) : Nat :=
  if deltas.length = 0 then 4
  else natLog2Round (max 1 (deltas.foldl (· + ·) 0 / deltas.length))

/-- Golomb-Rice encoder from `golomb_encode_scalar`
(src/unnamed/part_001 lines 95-112): for each delta it emits the
quotient `d >> k` as that many `0xFF` bytes followed by ONE byte holding
the remainder `d & ((1 << k) - 1)` (cast to `uint8_t`, hence `% 256`). -/
def golomb_encode_scalar (deltas : List Nat) (k : Nat) : List Nat :=
  deltas.foldr
    (fun d out => List.replicate (d >>> k) 255 ++ ((d &&& (2 ^ k - 1)) % 256) :: out) []

/-- Leading `0xFF` bytes consumed by the unary-quotient loop of
`gr_decode_next` (src/search.c lines 233-237): each such byte adds 8 to
the quotient.  Returns the accumulated quotient and the rest. -/
def skip255 : List Nat → Nat × List Nat
  | [] => (0, [])
  | b :: bs =>
    if b = 255 then
      let r := skip255 bs
      (r.1 + 8, r.2)
    else (0, b :: bs)

/-- Number of leading one bits of an 8-bit value, as counted by the
`while (val & 0x80) { q++; val <<= 1; }` loop of `gr_decode_next`. -/
def clo8 (v : Nat) : Nat :=
  ((List.range 8).takeWhile (fun i => v.testBit (7 - i))).length

/-- Extra remainder bytes consumed by the `while (read_bits > 8)` loop of
`gr_decode_next` (src/search.c lines 253-258); only reachable for
parameters `k > 8`. -/
def readExtra : Nat → Nat → List Nat → Option (Nat × List Nat)
  | _ + 9, _, [] => none
  | rb + 9, r, b :: bs => readExtra (rb + 1) ((r <<< 8) ||| b) bs
  | _, r, bs => some (r, bs)

/-- One step of the Golomb-Rice decoder `gr_decode_next`
(src/search.c lines 229-261): skip `0xFF` bytes (8 quotient units each),
count the leading one bits of the next byte, take the remainder from the
high bits of that byte after the shift, and return
`(q << k) | (r & mask)` together with the unread input.  `none` models
the `-1` end-of-input return. -/
def gr_decode_next (k : Nat) (bytes : List Nat) : Option (Nat × List Nat) :=
  let s := skip255 bytes
  match s.2 with
  | [] => none
  | val :: rest =>
    let ones := clo8 (val % 256)
    let q := s.1 + ones
    let valS := (val % 256 <<< ones) % 256
    let r0 := valS >>> (8 - k)
    match readExtra k r0 rest with
    | none => none
    | some (r, rest2) => some (((q <<< k) ||| (r &&& (2 ^ k - 1))), rest2)

/-- Fuel-driven decode loop: models the `while (1) { delta =
gr_decode_next(...); if (delta < 0) break; ... }` loop of
`search_worker` (src/search.c lines 347-349).  Every successful decode
step consumes at least one input byte, so fuel `length + 1` is never
exhausted before the decoder itself stops. -/
def grDecodeAllGo : Nat → Nat → List Nat → List Nat
  | 0, _, _ => []
  | fuel + 1, k, bytes =>
    match gr_decode_next k bytes with
    | none => []
    | some (d, rest) => d :: grDecodeAllGo fuel k rest

/-- Decode a whole Golomb-Rice stream with parameter `k`. -/
def gr_decode_all (k : Nat) (bytes : List Nat) : List Nat :=
  grDecodeAllGo (bytes.length + 1) k bytes

/-! ### Feed-forward Bloom pair

From src/ffbloom.c (authoritative file) and the variant in
src/unnamed/part_001 lines 361-486.  The xxhash-based hash families
(`primary_hash`, `secondary_hash`) are external library calls and are
modelled as parameters `h`, `hs : Nat → Nat → Nat` (item, seed index). -/

/-- Number of bits of the primary filter:
`BLOOM_SIZE` bytes times 8 (qfind.h: `1 << 25`). -/
def PRIMARY_BITS : Nat := 2 ^ 25 * 8

/-- Number of bits of the secondary filter:
`BLOOM_SEC_SIZE` bytes times 8 (qfind.h: `1 << 24`). -/
def SECONDARY_BITS : Nat := 2 ^ 24 * 8

/-- Bloom pair state: the sets of set bit positions of the two bit
arrays (a position may be recorded more than once; only membership
matters, matching the idempotent `|=` of the C), plus the
`num_hash_funcs` field. -/
structure FFBloom where
  primary : List Nat
  secondary : List Nat
  numHash : Nat
deriving DecidableEq

/-- State produced by `ffbloom_create` (src/ffbloom.c lines 22-44):
both bit arrays zeroed by `calloc`, `num_hash_funcs = MAX_HASH_FUNCS = 8`. -/
def ffbloom_create : FFBloom := ⟨[], [], 8⟩

/-- The primary-filter bit positions of an item:
`primary_hash(item, i) % (primary_size * 8)` for `i < num_hash_funcs`. -/
def primaryBits (h : Nat → Nat → Nat) (n : Nat) (t : Nat) : List Nat :=
  (List.range n).map (fun i => h t i % PRIMARY_BITS)

/-- The secondary-filter bit positions of an item:
`secondary_hash(item, i) % (secondary_size * 8)` for `i < num_hash_funcs`. -/
def secondaryBits (hs : Nat → Nat → Nat) (n : Nat) (t : Nat) : List Nat :=
  (List.range n).map (fun i => hs t i % SECONDARY_BITS)

/-- `ffbloom_add` (src/ffbloom.c lines 53-60): sets the
`num_hash_funcs` primary bits of the item. -/
def ffbloom_add (h : Nat → Nat → Nat) (bl : FFBloom) (t : Nat) : FFBloom :=
  { bl with primary := bl.primary ++ primaryBits h bl.numHash t }

/-- `ffbloom_check` (src/ffbloom.c lines 62-72): true iff every
primary bit of the item is set; no side effect in this version. -/
def ffbloom_check (h : Nat → Nat → Nat) (bl : FFBloom) (t : Nat) : Bool :=
  (primaryBits h bl.numHash t).all (fun b => bl.primary.elem b)

/-- `ffbloom_update_secondary` (src/ffbloom.c lines 74-81): sets the
`num_hash_funcs` secondary bits of the item. -/
def ffbloom_update_secondary (hs : Nat → Nat → Nat) (bl : FFBloom) (t : Nat) : FFBloom :=
  { bl with secondary := bl.secondary ++ secondaryBits hs bl.numHash t }

/-- The feed-forward check of src/unnamed/part_001 lines 413-433
(equivalently `ffbloom_check_and_update`, src/ffbloom.c lines 83-87):
returns false at the first unset primary bit, leaving the state intact;
if the loop completes with at least one hash function (`maybe_exists`),
it returns true and sets the secondary bits of the item. -/
def ffbloom_check_ff (h hs : Nat → Nat → Nat) (bl : FFBloom) (t : Nat) : Bool × FFBloom :=
  if (bl.numHash != 0) && (primaryBits h bl.numHash t).all (fun b => bl.primary.elem b) then
    (true, ffbloom_update_secondary hs bl t)
  else (false, bl)

/-- `ffbloom_get_candidates` (src/ffbloom.c lines 89-119): keeps the
patterns whose secondary bits are all set, appending while fewer than
`MAX_RESULTS = 10000` have been found. -/
def ffbloom_get_candidates (hs : Nat → Nat → Nat) (bl : FFBloom) (patterns : List Nat) :
    List Nat :=
  patterns.foldl
    (fun out p =>
      if (secondaryBits hs bl.numHash p).all (fun b => bl.secondary.elem b)
          && out.length < 10000 then
        out ++ [p]
      else out) []

/-- An operation applied to a Bloom pair: an insertion or a
(feed-forward) membership query. -/
inductive BloomOp where
  | add (t : Nat)
  | check (t : Nat)
deriving DecidableEq

/-- Run a sequence of Bloom operations; `check` uses the feed-forward
variant, whose only side effect is on the secondary array. -/
def runBloomOps (h hs : Nat → Nat → Nat) (bl : FFBloom) : List BloomOp → FFBloom
  | [] => bl
  | .add t :: rest => runBloomOps h hs (ffbloom_add h bl t) rest
  | .check t :: rest => runBloomOps h hs (ffbloom_check_ff h hs bl t).2 rest

/-! ### Path trie

Node type from qfind.h (`trie_node_t`): byte key, end-of-path flag,
file id, run-length count, children.  The C stores children in a
256-slot array indexed by byte and iterates them in index order; the
model keeps the non-null children as a list sorted by key, which yields
the same iteration order.  Insertion is `insert_path_to_trie`
(src/qfind.c lines 192-225), lookup is `search_trie`
(src/qfind.c lines 435-467). -/

/-- A trie node: `node key isEnd fid cnt children`. -/
inductive Trie where
  | node (key : Nat) (isEnd : Bool) (fid : Nat) (cnt : Nat) (children : List Trie)

/-- Key (byte label) of a node. -/
def Trie.key : Trie → Nat
  | .node k _ _ _ _ => k

/-- End-of-path flag of a node. -/
def Trie.isEnd : Trie → Bool
  | .node _ e _ _ _ => e

/-- File id stored at a node. -/
def Trie.fid : Trie → Nat
  | .node _ _ f _ _ => f

/-- Run-length count of a node. -/
def Trie.cnt : Trie → Nat
  | .node _ _ _ c _ => c

/-- Children of a node. -/
def Trie.children : Trie → List Trie
  | .node _ _ _ _ ch => ch

/-- Replace the run-length count of a node
(`current->count = count` in `insert_path_to_trie`). -/
def Trie.withCount : Trie → Nat → Trie
  | .node k e f _ ch, c => .node k e f c ch

/-- The node freshly produced by `calloc(1, sizeof(trie_node_t))` with
its key set to `k`: all other fields zero. -/
def freshNode (k : Nat) : Trie := .node k false 0 0 []

/-- The root node allocated by `qfind_init` (all fields zero). -/
def emptyTrie : Trie := freshNode 0

/-- Child slot lookup, modelling `current->children[c]`. -/
def getChild : List Trie → Nat → Option Trie
  | [], _ => none
  | c :: cs, k => if c.key = k then some c else getChild cs k

/-- Store a child back into its slot, keeping the list sorted by key
(the order in which the C's 256-slot array is iterated). -/
def setChild : List Trie → Trie → List Trie
  | [], c => [c]
  | x :: xs, c =>
    if x.key = c.key then c :: xs
    else if c.key < x.key then c :: x :: xs
    else x :: setChild xs c

/-- Fuel-driven body of `insert_path_to_trie` (src/qfind.c lines
192-225).  Each iteration of the C's `while (*p)` loop consumes at
least one path byte, so fuel `path.length + 1` is never exhausted.
A run of `r ≥ 2` equal bytes (`*p == *(p+1)`, run length capped at
`UINT8_MAX`) is routed through the shared `children[0xFF]` node whose
`count` field is overwritten with `r`; path bytes are nonzero
(C strings), so `headD 0` faithfully models reading the terminator. -/
def insertPathGo : Nat → Trie → List Nat → Nat → Trie
  | 0, t, _, _ => t
  | _ + 1, .node k _ _ c ch, [], id => .node k true id c ch
  | fuel + 1, .node k e f c ch, b :: rest, id =>
    if rest.headD 0 = b then
      let run := min (1 + (rest.takeWhile (fun x => x = b)).length) 255
      let child := ((getChild ch 255).getD (freshNode 255)).withCount run
      .node k e f c (setChild ch (insertPathGo fuel child ((b :: rest).drop run) id))
    else
      let child := (getChild ch b).getD (freshNode b)
      .node k e f c (setChild ch (insertPathGo fuel child rest id))

/-- `insert_path_to_trie(root, path, id)`. -/
def insert_path_to_trie (t : Trie) (path : List Nat) (id : Nat) : Trie :=
  insertPathGo (path.length + 1) t path id

/-- Byte `i` of a query string; past the end this reads the NUL
terminator, i.e. 0. -/
def qByte (q : List Nat) (i : Nat) : Nat := q.getD i 0

/-- The run-matching loop of `search_trie` at a `TRIE_PATH_COMPRESS`
node (src/qfind.c lines 440-446):
`while (remaining > 0 && *q == *(q-1)) { remaining--; q++; }`, returning
the final `remaining`.  At `posq = 0` the C reads one byte before the
query buffer (undefined behavior); the model reads index 0 there.  None
of the inputs evaluated below reach this loop. -/
def runConsume (q : List Nat) : Nat → Nat → Nat
  | _, 0 => 0
  | posq, r + 1 =>
    if qByte q posq = qByte q (posq - 1) then runConsume q (posq + 1) r else r + 1

/-- Fuel-driven body of `search_trie` (src/qfind.c lines 435-467).
The accumulated result list plays the role of the C's `results` buffer
and `*count`; the entry guard `*count >= max_results` stops descent, and
matched end-of-path nodes at exactly the query's length are appended
(the C appends without a bound check at that point).  Fuel bounds the
recursion depth; the trie depth is at most `PATH_MAX + 1 = 4097`, so the
wrapper's fuel of 4098 is never exhausted. -/
def searchTrieGo : Nat → Trie → List Nat → Nat → List Nat → Nat → List Nat
  | 0, _, _, _, acc, _ => acc
  | fuel + 1, .node key isE f cnt children, q, pos, acc, maxr =>
    if maxr ≤ acc.length then acc
    else
      let pos? : Option Nat :=
        if key = 255 then
          if runConsume q pos cnt = 0 then some (pos + cnt) else none
        else if key ≠ 0 then
          if q.length ≤ pos ∨ qByte q pos ≠ key then none else some (pos + 1)
        else some pos
      match pos? with
      | none => acc
      | some pos1 =>
        let acc1 := if isE ∧ pos1 = q.length then acc ++ [f] else acc
        children.foldl (fun a c => searchTrieGo fuel c q pos1 a maxr) acc1

/-- `search_trie(node, query, 0, results, &count, max_results)` started
at the trie root with an empty result buffer. -/
def search_trie (t : Trie) (q : List Nat) (maxr : Nat) : List Nat :=
  searchTrieGo 4098 t q 0 [] maxr

/-! ### Index state, metadata, permissions, trigram extraction -/

/-- Directory entry `index_entry_t` (qfind.h lines 49-54). -/
structure IndexEntry where
  trigram : Nat
  numFiles : Nat
  offset : Nat
  size : Nat
deriving DecidableEq

/-- File metadata `file_metadata_t` (qfind.h lines 89-94): id, path
bytes, mode/permission word, mtime. -/
structure FileMeta where
  id : Nat
  path : List Nat
  permissions : Nat
  modified : Nat
deriving DecidableEq

/-- The parts of `qfind_index_t` (qfind.h lines 122-134) observable by
the modelled operations.  `compressedData` is `none` while the C's
`compressed_data` pointer is null. -/
structure QfindState where
  bloom : FFBloom
  entries : List IndexEntry
  compressedData : Option (List Nat)
  trie : Trie
  fileMetadata : List FileMeta
  numFiles : Nat

/-- Index state right after `qfind_init` (src/qfind.c lines 42-71),
before any metadata has been recorded. -/
def initState : QfindState := ⟨ffbloom_create, [], none, emptyTrie, [], 0⟩

/-- Metadata record at index `i`, modelling
`&index->file_metadata[file_candidates[i]]`.  The C performs no bounds
check here; an out-of-range id reads unowned memory, modelled by the
all-zero record. -/
def metaAt (st : QfindState) (i : Nat) : FileMeta := st.fileMetadata.getD i ⟨0, [], 0, 0⟩

/-- `check_file_permission` (src/search.c lines 466-478): root (uid 0)
always passes; otherwise the mode word is tested against
`S_IROTH = 0o004`, and the owner uid / gid that the code (incorrectly,
per the spec's design notes) extracts from the same word as
`permissions >> 16` and `(permissions >> 8) & 0xFF` are compared against
the caller for the `S_IRUSR = 0o400` and `S_IRGRP = 0o040` tests. -/
def check_file_permission (meta : FileMeta) (uid gid : Nat) : Bool :=
  if uid = 0 then true
  else
    let mode := meta.permissions
    let fuid := meta.permissions >>> 16
    let fgid := (meta.permissions >>> 8) &&& 255
    if mode &&& 4 ≠ 0 then true
    else if fuid = uid ∧ mode &&& 256 ≠ 0 then true
    else if fgid = gid ∧ mode &&& 32 ≠ 0 then true
    else false

/-- `extract_trigrams` (src/unnamed/part_000 lines 9-20): every window
of three consecutive bytes, packed little-endian into a `uint32_t` by
`memcpy`; empty for strings shorter than `TRIGRAM_SIZE = 3`.  (The
four-argument variant in src/unnamed/part_001 line 352 is an
unimplemented TODO stub; this is the implemented extractor, which is
also what the spec's section 4.1 describes.) -/
def extract_trigrams (s : List Nat) : List Nat :=
  if s.length < 3 then []
  else (List.range (s.length - 2)).map
    (fun i => qByte s i + 256 * qByte s (i + 1) + 65536 * qByte s (i + 2))

/-- Directory update of `add_file_to_index` (src/qfind.c lines 238-262):
scan for the trigram's entry; bump `num_files` on the first match, or
append a fresh entry (created with zero counts, then bumped to 1). -/
def bumpEntry : List IndexEntry → Nat → List IndexEntry
  | [], t => [⟨t, 1, 0, 0⟩]
  | e :: es, t =>
    if e.trigram = t then { e with numFiles := e.numFiles + 1 } :: es
    else e :: bumpEntry es t

/-- `add_file_to_index` (src/qfind.c lines 227-266): insert the path
into the trie, then for each trigram of the path add it to the primary
Bloom filter and bump its directory entry.  (The qfind.c variant counts
posting-list membership in `num_files` only; no id list is stored.) -/
def add_file_to_index (h : Nat → Nat → Nat) (st : QfindState) (path : List Nat) (id : Nat) :
    QfindState :=
  let st1 := { st with trie := insert_path_to_trie st.trie path id }
  (extract_trigrams path).foldl
    (fun s t =>
      { s with bloom := ffbloom_add h s.bloom t, entries := bumpEntry s.entries t }) st1

/-! ### Commit: compression and the LSM update queue -/

/-- Write `data` over `base` starting at position `pos` (bytes beyond
`base`'s length are dropped). -/
def writeAt (base : List Nat) (pos : Nat) (data : List Nat) : List Nat :=
  (List.range base.length).map
    (fun i => if pos ≤ i ∧ i < pos + data.length then qByte data (i - pos) else qByte base i)

/-- `compress_posting_lists` (src/qfind.c lines 268-298).  The first
loop rewrites every directory entry's `(offset, size)` in place, with
`size` the entropy coder's worst-case bound (`ZSTD_compressBound`,
modelled by the parameter `bound`) of `num_files * 8` bytes.  Only then
is the new blob allocated; `allocOk = false` models that `malloc`
returning null, in which case the function stores the null pointer into
`index->compressed_data` and returns `-1` with the directory already
rewritten.  On success each list is compressed (the C compresses a
zero-filled dummy buffer of `num_files` ids; `comp` models
`ZSTD_compress`) into the blob at its offset and the entry's `size` is
replaced by the compressed size. -/
def compress_posting_lists (bound : Nat → Nat) (comp : List Nat → List Nat)
    (allocOk : Bool) (st : QfindState) : Int × QfindState :=
  let pass1 := st.entries.foldl
    (fun (p : Nat × List IndexEntry) e =>
      let sz := bound (e.numFiles * 8)
      (p.1 + sz, p.2 ++ [{ e with offset := p.1, size := sz }]))
    (0, [])
  if allocOk = false then
    (-1, { st with entries := pass1.2, compressedData := none })
  else
    let blob := pass1.2.foldl
      (fun b e => writeAt b e.offset (comp (List.replicate (e.numFiles * 8) 0)))
      (List.replicate pass1.1 0)
    let entries2 := pass1.2.map
      (fun e => { e with size := (comp (List.replicate (e.numFiles * 8) 0)).length })
    (0, { st with entries := entries2, compressedData := some blob })

/-- Tombstoning loop of `qfind_commit_updates`
(src/index_updates.c lines 299-308): clear the path of the first
metadata record whose path equals the deleted path (`path[0] = '\0'`
empties the C string). -/
def tombstoneFirst : List FileMeta → List Nat → List FileMeta
  | [], _ => []
  | m :: ms, p =>
    if m.path = p then { m with path := [] } :: ms else m :: tombstoneFirst ms p

/-- `qfind_commit_updates` (src/index_updates.c lines 278-312) applied
to already-drained batches: every pending add goes through
`add_file_to_index`, every pending delete tombstones its metadata
record, and the posting lists are recompressed.  The C returns 0
unconditionally, ignoring the compression result. -/
def qfind_commit_updates (h : Nat → Nat → Nat) (bound : Nat → Nat)
    (comp : List Nat → List Nat) (allocOk : Bool) (st : QfindState)
    (adds : List (List Nat × Nat)) (dels : List (List Nat)) : Int × QfindState :=
  let st1 := adds.foldl (fun s pr => add_file_to_index h s pr.1 pr.2) st
  let st2 := dels.foldl
    (fun s p => { s with fileMetadata := tombstoneFirst s.fileMetadata p }) st1
  ((0 : Int), (compress_posting_lists bound comp allocOk st2).2)

/-! ### Query resolver (`qfind_search`, src/qfind.c lines 362-433) -/

/-- Search environment: the external collaborators the resolver calls.
`h`/`hs` are the primary/secondary xxhash families; `entropyDecode`
models `ZSTD_decompress` (`none` = error return); `scorePass` models the
float comparison `calculate_relevance_score(...) >= SCORE_THRESHOLD`;
`le` models the float comparator `compare_scores` handed to `qsort`. -/
structure SearchEnv where
  h : Nat → Nat → Nat
  hs : Nat → Nat → Nat
  entropyDecode : List Nat → Option (List Nat)
  scorePass : FileMeta → List Nat → Bool
  le : Nat → Nat → Bool

/-- Result of `qfind_search`: an error status or the filled result
buffer (the C returns the result count and fills `query->results`). -/
inductive SearchRet where
  | err (code : Int)
  | ok (results : List Nat)
deriving DecidableEq

/-- Decode a byte stream as consecutive 8-byte little-endian
`file_id_t` values (the `memcpy(&id, decompressed + i*8, 8)` loop of
`process_posting_list`, src/qfind.c lines 319-321); trailing bytes that
do not fill a full word are dropped as in `decomp_size / sizeof(...)`. -/
def parse_u64_le : List Nat → List Nat
  | b0 :: b1 :: b2 :: b3 :: b4 :: b5 :: b6 :: b7 :: rest =>
    (b0 + 256 * b1 + 256 ^ 2 * b2 + 256 ^ 3 * b3 + 256 ^ 4 * b4
      + 256 ^ 5 * b5 + 256 ^ 6 * b6 + 256 ^ 7 * b7) :: parse_u64_le rest
  | _ => []

/-- `process_posting_list` (src/qfind.c lines 304-337): decompress the
blob slice `[offset, offset+size)` into a buffer of capacity
`num_files * 8` (decompression failure, or content exceeding the
capacity, abandons the entry), then append each decoded id to the
candidate buffer unless already present or `MAX_CANDIDATES = 100000`
candidates exist.  A null `compressed_data` cannot be decompressed and
is likewise modelled as abandoning the entry. -/
def process_posting_list (dec : List Nat → Option (List Nat)) (st : QfindState)
    (e : IndexEntry) (acc : List Nat) : List Nat :=
  match st.compressedData with
  | none => acc
  | some blob =>
    match dec ((blob.drop e.offset).take e.size) with
    | none => acc
    | some bytes =>
      if e.numFiles * 8 < bytes.length then acc
      else
        (parse_u64_le bytes).foldl
          (fun a id => if a.elem id || 100000 ≤ a.length then a else a ++ [id]) acc

/-- Candidate-accumulation loop of `qfind_search` (src/qfind.c lines
395-403): for each candidate trigram, the directory is scanned in order
and the first matching entry's posting list is processed. -/
def gather_candidates (dec : List Nat → Option (List Nat)) (st : QfindState) :
    List Nat → List Nat → List Nat
  | [], acc => acc
  | c :: cs, acc =>
    gather_candidates dec st cs
      (match st.entries.find? (fun e => e.trigram == c) with
       | some e => process_posting_list dec st e acc
       | none => acc)

/-- Permission-and-score loop of `qfind_search` (src/qfind.c lines
405-417): a candidate id survives only if `check_file_permission`
passes and its relevance score reaches `SCORE_THRESHOLD`. -/
def scored_stage (env : SearchEnv) (st : QfindState) (uid gid : Nat) (tg : List Nat) :
    List Nat → List Nat → List Nat
  | [], acc => acc
  | i :: rest, acc =>
    scored_stage env st uid gid tg rest
      (if check_file_permission (metaAt st i) uid gid then
        (if env.scorePass (metaAt st i) tg then acc ++ [i] else acc)
      else acc)

/-- Query context `query_ctx_t` (qfind.h lines 137-146), restricted to
the fields `qfind_search` reads. -/
structure Query where
  str : List Nat
  maxResults : Nat
  uid : Nat
  gid : Nat

/-- `qfind_search` (src/qfind.c lines 362-433).  Null-pointer guards
aside (`query` and `query->query` cannot be null in the model), the
guard rejects `max_results == 0` with `-EINVAL = -22`.  A query below
the trigram floor is served from the trie.  Otherwise every query
trigram is checked against the primary Bloom filter (the ffbloom.c
`ffbloom_check`, which has no side effect); any miss returns zero
results.  Candidate trigrams are then drawn from the secondary filter
by `ffbloom_get_candidates`, their posting lists decoded and
deduplicated, survivors of the permission/score stage sorted by the
score comparator, and the first `max_results` ids returned. -/
def qfind_search (env : SearchEnv) (st : QfindState) (q : Query) : SearchRet :=
  if q.maxResults = 0 then .err (-22)
  else if (extract_trigrams q.str).isEmpty then .ok (search_trie st.trie q.str q.maxResults)
  else if (extract_trigrams q.str).all (fun t => ffbloom_check env.h st.bloom t) then
    .ok ((sortLe env.le
      (scored_stage env st q.uid q.gid (extract_trigrams q.str)
        (gather_candidates env.entropyDecode st
          (ffbloom_get_candidates env.hs st.bloom (extract_trigrams q.str)) []) [])).take
      q.maxResults)
  else .ok []

/-! ### Concrete inputs for the evaluated scenarios -/

/-- Path bytes of "/a/notes.txt". -/
def pNotesTxt : List Nat := [47, 97, 47, 110, 111, 116, 101, 115, 46, 116, 120, 116]

/-- Path bytes of "/b/notes.md". -/
def pNotesMd : List Nat := [47, 98, 47, 110, 111, 116, 101, 115, 46, 109, 100]

/-- Path bytes of "/c/other.log". -/
def pOtherLog : List Nat := [47, 99, 47, 111, 116, 104, 101, 114, 46, 108, 111, 103]

/-- Query bytes of "notes". -/
def qNotes : List Nat := [110, 111, 116, 101, 115]

/-- Path bytes of "/ab". -/
def pAB : List Nat := [47, 97, 98]

/-- Path bytes of "/abc". -/
def pABC : List Nat := [47, 97, 98, 99]

/-- Path bytes of "/abd". -/
def pABD : List Nat := [47, 97, 98, 100]

/-- Query bytes of "ab". -/
def qab : List Nat := [97, 98]

/-- Query bytes of "ac". -/
def qac : List Nat := [97, 99]

/-- Path (and query) bytes of "/a". -/
def pA : List Nat := [47, 97]

/-- Query bytes of "abc". -/
def qabc : List Nat := [97, 98, 99]

/-- A concrete stand-in for the xxhash-based hash families, used only to
instantiate universally quantified theorems at a computable point. -/
def hW : Nat → Nat → Nat := fun t i => t + i

/-- A concrete search environment for witness evaluations. -/
def envW : SearchEnv := ⟨hW, hW, fun _ => none, fun _ _ => true, fun _ _ => true⟩

/-- Index state of the tombstone scenario (spec section 8, scenario 3):
"/a/notes.txt", "/b/notes.md", "/c/other.log" added as ids 0, 1, 2
with walker-recorded metadata (mode 0o644 = 420), committed, then
"/b/notes.md" deleted and committed again.  Parameterized by the hash
family and the entropy coder, which the scenario does not constrain. -/
def scenarioTombstone (h : Nat → Nat → Nat) (bound : Nat → Nat)
    (comp : List Nat → List Nat) : QfindState :=
  let s0 := { initState with
    fileMetadata := [⟨0, pNotesTxt, 420, 0⟩, ⟨1, pNotesMd, 420, 0⟩, ⟨2, pOtherLog, 420, 0⟩],
    numFiles := 3 }
  let s1 := add_file_to_index h s0 pNotesTxt 0
  let s2 := add_file_to_index h s1 pNotesMd 1
  let s3 := add_file_to_index h s2 pOtherLog 2
  let s4 := (compress_posting_lists bound comp true s3).2
  (qfind_commit_updates h bound comp true s4 [] [pNotesMd]).2

/-- Index state of the short-query scenario (spec section 8, scenario
2): "/ab", "/abc", "/abd" added as ids 0, 1, 2 and committed. -/
def scenarioShort (h : Nat → Nat → Nat) (bound : Nat → Nat)
    (comp : List Nat → List Nat) : QfindState :=
  let s0 := { initState with
    fileMetadata := [⟨0, pAB, 420, 0⟩, ⟨1, pABC, 420, 0⟩, ⟨2, pABD, 420, 0⟩],
    numFiles := 3 }
  let s1 := add_file_to_index h s0 pAB 0
  let s2 := add_file_to_index h s1 pABC 1
  let s3 := add_file_to_index h s2 pABD 2
  (compress_posting_lists bound comp true s3).2

/-- Index state holding the single two-byte path "/a" as id 0, whose
metadata has mode 0 (readable by nobody but root).  Since "/a" is below
the trigram floor, `add_file_to_index` only touches the trie for it. -/
def statePermA : QfindState :=
  { add_file_to_index hW initState pA 0 with
    fileMetadata := [⟨0, pA, 0, 0⟩], numFiles := 1 }

/-- Pre-commit index state used for the out-of-memory commit theorem:
one committed directory entry with `(offset, size) = (5, 7)` and an
existing two-byte compressed blob. -/
def stateOom : QfindState :=
  { initState with entries := [⟨100, 1, 5, 7⟩], compressedData := some [9, 9] }

/-! ### Helper lemmas -/

/-- Membership in a comparator insertion. -/
theorem mem_insertLe (le : Nat → Nat → Bool) (x y : Nat) :
    ∀ l : List Nat, x ∈ insertLe le y l ↔ x = y ∨ x ∈ l := by
  intro l
  induction l with
  | nil => simp [insertLe]
  | cons z zs ih =>
    by_cases hc : le y z = true
    · simp [insertLe, hc]
    · simp only [insertLe, hc, if_neg, Bool.not_eq_true, List.mem_cons, ih]
      tauto

/-- Comparator sorting preserves membership. -/
theorem mem_sortLe (le : Nat → Nat → Bool) (x : Nat) :
    ∀ l : List Nat, x ∈ sortLe le l ↔ x ∈ l := by
  intro l
  induction l with
  | nil => simp [sortLe]
  | cons y ys ih =>
    simp only [sortLe, List.foldr_cons, mem_insertLe, List.mem_cons]
    rw [sortLe] at ih
    rw [ih]

/-- The feed-forward check never changes the primary array. -/
theorem check_ff_primary (h hs : Nat → Nat → Nat) (bl : FFBloom) (t : Nat) :
    (ffbloom_check_ff h hs bl t).2.primary = bl.primary := by
  unfold ffbloom_check_ff
  split <;> rfl

/-- The feed-forward check never changes the hash-function count. -/
theorem check_ff_numHash (h hs : Nat → Nat → Nat) (bl : FFBloom) (t : Nat) :
    (ffbloom_check_ff h hs bl t).2.numHash = bl.numHash := by
  unfold ffbloom_check_ff
  split <;> rfl

/-- Running Bloom operations does not change the hash-function count. -/
theorem runBloomOps_numHash (h hs : Nat → Nat → Nat) :
    ∀ (ops : List BloomOp) (bl : FFBloom), (runBloomOps h hs bl ops).numHash = bl.numHash := by
  intro ops
  induction ops with
  | nil => intro bl; rfl
  | cons op rest ih =>
    intro bl
    cases op with
    | add t => rw [runBloomOps, ih]; rfl
    | check t => rw [runBloomOps, ih, check_ff_numHash]

/-- Primary bits are never cleared: membership in the primary array is
preserved by any sequence of Bloom operations. -/
theorem runBloomOps_primary_mono (h hs : Nat → Nat → Nat) :
    ∀ (ops : List BloomOp) (bl : FFBloom) (x : Nat),
      x ∈ bl.primary → x ∈ (runBloomOps h hs bl ops).primary := by
  intro ops
  induction ops with
  | nil => intro bl x hx; exact hx
  | cons op rest ih =>
    intro bl x hx
    cases op with
    | add t =>
      rw [runBloomOps]
      exact ih _ x (List.mem_append_left _ hx)
    | check t =>
      rw [runBloomOps]
      apply ih
      rw [check_ff_primary]
      exact hx

/-- The pure primary check succeeds exactly when every primary bit of
the item is in the set-bit list. -/
theorem ffbloom_check_eq_true_iff (h : Nat → Nat → Nat) (bl : FFBloom) (t : Nat) :
    ffbloom_check h bl t = true ↔ ∀ x ∈ primaryBits h bl.numHash t, x ∈ bl.primary := by
  simp [ffbloom_check, List.all_eq_true, List.elem_iff]

/-- The per-trigram loop of `add_file_to_index` never touches the
secondary Bloom array. -/
theorem trigramFold_secondary (h : Nat → Nat → Nat) :
    ∀ (ts : List Nat) (s : QfindState),
      (ts.foldl
        (fun s t =>
          { s with bloom := ffbloom_add h s.bloom t, entries := bumpEntry s.entries t })
        s).bloom.secondary = s.bloom.secondary := by
  intro ts
  induction ts with
  | nil => intro s; rfl
  | cons t ts ih => intro s; rw [List.foldl_cons, ih]; rfl

/-- The per-trigram loop of `add_file_to_index` never changes the
hash-function count. -/
theorem trigramFold_numHash (h : Nat → Nat → Nat) :
    ∀ (ts : List Nat) (s : QfindState),
      (ts.foldl
        (fun s t =>
          { s with bloom := ffbloom_add h s.bloom t, entries := bumpEntry s.entries t })
        s).bloom.numHash = s.bloom.numHash := by
  intro ts
  induction ts with
  | nil => intro s; rfl
  | cons t ts ih => intro s; rw [List.foldl_cons, ih]; rfl

/-- The per-trigram loop of `add_file_to_index` never touches the trie. -/
theorem trigramFold_trie (h : Nat → Nat → Nat) :
    ∀ (ts : List Nat) (s : QfindState),
      (ts.foldl
        (fun s t =>
          { s with bloom := ffbloom_add h s.bloom t, entries := bumpEntry s.entries t })
        s).trie = s.trie := by
  intro ts
  induction ts with
  | nil => intro s; rfl
  | cons t ts ih => intro s; rw [List.foldl_cons, ih]

/-- Adding a file never touches the secondary Bloom array. -/
theorem add_file_secondary (h : Nat → Nat → Nat) (st : QfindState) (p : List Nat) (id : Nat) :
    (add_file_to_index h st p id).bloom.secondary = st.bloom.secondary := by
  unfold add_file_to_index
  rw [trigramFold_secondary]

/-- Adding a file never changes the hash-function count. -/
theorem add_file_numHash (h : Nat → Nat → Nat) (st : QfindState) (p : List Nat) (id : Nat) :
    (add_file_to_index h st p id).bloom.numHash = st.bloom.numHash := by
  unfold add_file_to_index
  rw [trigramFold_numHash]

/-- Adding a file updates the trie exactly by `insert_path_to_trie`. -/
theorem add_file_trie (h : Nat → Nat → Nat) (st : QfindState) (p : List Nat) (id : Nat) :
    (add_file_to_index h st p id).trie = insert_path_to_trie st.trie p id := by
  unfold add_file_to_index
  rw [trigramFold_trie]

/-- Recompression never touches the Bloom pair. -/
theorem compress_bloom (bound : Nat → Nat) (comp : List Nat → List Nat)
    (allocOk : Bool) (st : QfindState) :
    (compress_posting_lists bound comp allocOk st).2.bloom = st.bloom := by
  unfold compress_posting_lists
  split <;> rfl

/-- Recompression never touches the trie. -/
theorem compress_trie (bound : Nat → Nat) (comp : List Nat → List Nat)
    (allocOk : Bool) (st : QfindState) :
    (compress_posting_lists bound comp allocOk st).2.trie = st.trie := by
  unfold compress_posting_lists
  split <;> rfl

/-- With an all-zero secondary array and at least one hash function,
`ffbloom_get_candidates` yields no candidates. -/
theorem get_candidates_secondary_empty (hs : Nat → Nat → Nat) (bl : FFBloom)
    (hsec : bl.secondary = []) (hn : bl.numHash ≠ 0) :
    ∀ pats : List Nat, ffbloom_get_candidates hs bl pats = [] := by
  obtain ⟨m, hm⟩ := Nat.exists_eq_succ_of_ne_zero hn
  have hall : ∀ p, ((secondaryBits hs bl.numHash p).all (fun b => bl.secondary.elem b)) = false := by
    intro p
    rw [hsec, hm]
    simp [secondaryBits, List.range_succ]
  have hstep : ∀ (pats : List Nat) (out : List Nat),
      (pats.foldl
        (fun out p =>
          if (secondaryBits hs bl.numHash p).all (fun b => bl.secondary.elem b)
              && out.length < 10000 then out ++ [p] else out) out) = out := by
    intro pats
    induction pats with
    | nil => intro out; rfl
    | cons p ps ih =>
      intro out
      rw [List.foldl_cons, hall p]
      simp only [Bool.false_and, Bool.false_eq_true, if_false]
      exact ih out
  intro pats
  unfold ffbloom_get_candidates
  exact hstep pats []

/-- Every id an accumulator gains in the permission/score stage passed
the permission check. -/
theorem mem_scored_stage (env : SearchEnv) (st : QfindState) (uid gid : Nat) (tg : List Nat) :
    ∀ (cands acc : List Nat) (i : Nat),
      i ∈ scored_stage env st uid gid tg cands acc →
      i ∈ acc ∨ check_file_permission (metaAt st i) uid gid = true := by
  intro cands
  induction cands with
  | nil => intro acc i hi; exact Or.inl hi
  | cons j rest ih =>
    intro acc i hi
    rw [scored_stage] at hi
    rcases ih _ i hi with hacc | hok
    · by_cases hperm : check_file_permission (metaAt st j) uid gid = true
      · rw [if_pos hperm] at hacc
        by_cases hsc : env.scorePass (metaAt st j) tg = true
        · rw [if_pos hsc] at hacc
          rcases List.mem_append.1 hacc with h1 | h2
          · exact Or.inl h1
          · have : i = j := by simpa using h2
            subst this
            exact Or.inr hperm
        · rw [if_neg hsc] at hacc
          exact Or.inl hacc
      · rw [if_neg hperm] at hacc
        exact Or.inl hacc
    · exact Or.inr hok

/-- The tombstone scenario never writes the secondary Bloom array: no
stage of `add_file_to_index`, `compress_posting_lists` or
`qfind_commit_updates` touches it. -/
theorem scenarioTombstone_secondary (h : Nat → Nat → Nat) (bound : Nat → Nat)
    (comp : List Nat → List Nat) :
    (scenarioTombstone h bound comp).bloom.secondary = [] := by
  simp only [scenarioTombstone, qfind_commit_updates, List.foldl_nil, List.foldl_cons,
    compress_bloom, add_file_secondary]
  rfl

/-- The tombstone scenario keeps the created hash-function count of 8. -/
theorem scenarioTombstone_numHash (h : Nat → Nat → Nat) (bound : Nat → Nat)
    (comp : List Nat → List Nat) :
    (scenarioTombstone h bound comp).bloom.numHash = 8 := by
  simp only [scenarioTombstone, qfind_commit_updates, List.foldl_nil, List.foldl_cons,
    compress_bloom, add_file_numHash]
  rfl

/-- A query below the trigram floor is answered from the trie. -/
theorem qfind_search_short (env : SearchEnv) (st : QfindState) (q : Query)
    (hm : ¬ q.maxResults = 0) (hq : (extract_trigrams q.str).isEmpty = true) :
    qfind_search env st q = .ok (search_trie st.trie q.str q.maxResults) := by
  unfold qfind_search
  rw [if_neg hm, if_pos hq]

/-- The trie of the short-query scenario is exactly the three inserted
paths. -/
theorem scenarioShort_trie (h : Nat → Nat → Nat) (bound : Nat → Nat)
    (comp : List Nat → List Nat) :
    (scenarioShort h bound comp).trie =
      insert_path_to_trie
        (insert_path_to_trie (insert_path_to_trie emptyTrie pAB 0) pABC 1) pABD 2 := by
  simp only [scenarioShort, compress_trie, add_file_trie]
  rfl

/-! ### Claim theorems -/

/-- C1.  The committed Golomb-Rice pipeline does not round-trip: for the
posting list whose raw contents are the single file id 1, the per-list
parameter is `k = 0`, the encoder emits the bytes `[0xFF, 0x00]`, and
decoding those bytes (with the list's own parameter 0, or with the query
path's hard-coded `k = 4`) prefix-sums to `[8]` (resp. `[128]`) — not the
sorted, duplicate-free id list `[1]` the claim requires.  The encoder
writes one whole `0xFF` byte per unary unit while the decoder counts
each `0xFF` byte as 8 unary bits. -/
theorem golomb_roundtrip_fails_on_singleton :
    calculate_golomb_param (delta_encode (commit_sort [1])) = 0 ∧
    golomb_encode_scalar (delta_encode (commit_sort [1])) 0 = [255, 0] ∧
    cumSums (gr_decode_all 0 (golomb_encode_scalar (delta_encode (commit_sort [1])) 0)) = [8] ∧
    cumSums (gr_decode_all 4 (golomb_encode_scalar (delta_encode (commit_sort [1])) 0)) = [128] ∧
    spec_sort_unique [1] = [1] ∧ ([8] : List Nat) ≠ [1] ∧ ([128] : List Nat) ≠ [1] := by
  decide

/-- C3.  Commit step 1 sorts with `memcmp` on little-endian `uint32_t`
values and removes no duplicates: the pre-commit list `[1, 256]` comes
out as `[256, 1]` — not strictly ascending as unsigned integers — and the
duplicate pair `[5, 5]` is kept whole, while the claimed behavior
(`spec_sort_unique`) produces `[1, 256]` and `[5]`. -/
theorem commit_sort_not_numeric_ascending :
    commit_sort [1, 256] = [256, 1] ∧
    strictAsc (commit_sort [1, 256]) = false ∧
    commit_sort [5, 5] = [5, 5] ∧
    spec_sort_unique [1, 256] = [1, 256] ∧
    spec_sort_unique [5, 5] = [5] := by
  decide

/-- C8.  An out-of-memory failure while committing does not preserve the
previously committed state: for an index with one directory entry at
`(offset, size) = (5, 7)` and an existing blob, `compress_posting_lists`
returns `-1` but has already rewritten the entry's offset to 0 and
replaced the old blob pointer by null, for every entropy-coder bound. -/
theorem commit_oom_clobbers_directory (bound : Nat → Nat) (comp : List Nat → List Nat) :
    (compress_posting_lists bound comp false stateOom).1 = -1 ∧
    (compress_posting_lists bound comp false stateOom).2.compressedData = none ∧
    stateOom.compressedData = some [9, 9] ∧
    (compress_posting_lists bound comp false stateOom).2.entries.map (fun e => e.offset) = [0] ∧
    stateOom.entries.map (fun e => e.offset) = [5] := by
  exact ⟨rfl, rfl, rfl, rfl, rfl⟩

/-- C10.  `check_file_permission` grants access to every file when the
querying uid is 0 (root), whatever the mode word; consequently the
permission/score stage of `qfind_search` run for root never drops a
candidate at the permission test — it reduces to the score test alone. -/
theorem root_bypasses_permission_filter :
    (∀ (meta : FileMeta) (gid : Nat), check_file_permission meta 0 gid = true) ∧
    (∀ (env : SearchEnv) (st : QfindState) (gid : Nat) (tg : List Nat) (cands acc : List Nat),
      scored_stage env st 0 gid tg cands acc =
        cands.foldl
          (fun a i => if env.scorePass (metaAt st i) tg then a ++ [i] else a) acc) := by
  constructor
  · intro meta gid
    rfl
  · intro env st gid tg cands
    induction cands with
    | nil => intro acc; rfl
    | cons j rest ih =>
      intro acc
      rw [scored_stage, List.foldl_cons,
        if_pos (show check_file_permission (metaAt st j) 0 gid = true from rfl)]
      exact ih _

/-- C2.  The primary Bloom filter has no false negatives: once a trigram
has been passed to `ffbloom_add`, every later `ffbloom_check` of it
returns true, whatever interleaving of further add and (feed-forward)
check operations has run in between — bits are only ever set, never
cleared. -/
theorem ffbloom_no_false_negatives (h hs : Nat → Nat → Nat) (bl : FFBloom)
    (ops : List BloomOp) (t : Nat) (hmem : BloomOp.add t ∈ ops) :
    ffbloom_check h (runBloomOps h hs bl ops) t = true := by
  induction ops generalizing bl with
  | nil => cases hmem
  | cons op rest ih =>
    rcases List.mem_cons.1 hmem with heq | hrest
    · rw [← heq, runBloomOps, ffbloom_check_eq_true_iff]
      intro x hx
      rw [runBloomOps_numHash] at hx
      exact runBloomOps_primary_mono h hs rest _ x (List.mem_append_right _ hx)
    · cases op with
      | add u => rw [runBloomOps]; exact ih _ hrest
      | check u => rw [runBloomOps]; exact ih _ hrest

/-- Witness for C2 at a concrete hash family, filter and trace. -/
theorem ffbloom_no_false_negatives_witness :
    ffbloom_check hW (runBloomOps hW hW ffbloom_create [BloomOp.add 3, BloomOp.check 9]) 3
      = true :=
  ffbloom_no_false_negatives hW hW ffbloom_create [BloomOp.add 3, BloomOp.check 9] 3
    (by decide)

/-- C6.  The feed-forward check: with at least one hash function (the
constructor installs 8), it returns true exactly when every primary bit
of the item is set; a true return sets the item's secondary bits and
leaves the primary array alone, while a false return leaves the whole
filter pair unchanged. -/
theorem ffbloom_check_ff_feed_forward (h hs : Nat → Nat → Nat) (bl : FFBloom) (t : Nat)
    (hn : bl.numHash ≠ 0) :
    ((ffbloom_check_ff h hs bl t).1 = true ↔
      ∀ x ∈ primaryBits h bl.numHash t, x ∈ bl.primary) ∧
    ((ffbloom_check_ff h hs bl t).1 = true →
      (ffbloom_check_ff h hs bl t).2.secondary
        = bl.secondary ++ secondaryBits hs bl.numHash t ∧
      (ffbloom_check_ff h hs bl t).2.primary = bl.primary) ∧
    ((ffbloom_check_ff h hs bl t).1 = false → (ffbloom_check_ff h hs bl t).2 = bl) := by
  have hne : (bl.numHash != 0) = true := by
    simpa using hn
  by_cases hall : (primaryBits h bl.numHash t).all (fun b => bl.primary.elem b) = true
  · have hcond : ((bl.numHash != 0)
        && (primaryBits h bl.numHash t).all (fun b => bl.primary.elem b)) = true := by
      rw [hne, hall]
      rfl
    unfold ffbloom_check_ff
    rw [if_pos hcond]
    refine ⟨?_, ?_, ?_⟩
    · simp only [true_iff]
      intro x hx
      have := (List.all_eq_true.1 hall) x hx
      simpa [List.elem_iff] using this
    · intro _
      exact ⟨rfl, rfl⟩
    · intro hcon
      cases hcon
  · have hcond : ((bl.numHash != 0)
        && (primaryBits h bl.numHash t).all (fun b => bl.primary.elem b)) = false := by
      rw [hne]
      simpa using hall
    unfold ffbloom_check_ff
    rw [if_neg (show ¬ ((bl.numHash != 0)
        && (primaryBits h bl.numHash t).all (fun b => bl.primary.elem b)) = true from by
      rw [hcond]
      decide)]
    refine ⟨?_, ?_, ?_⟩
    · constructor
      · intro hcon
        cases hcon
      · intro hforall
        exfalso
        apply hall
        rw [List.all_eq_true]
        intro x hx
        simpa [List.elem_iff] using hforall x hx
    · intro hcon
      cases hcon
    · intro _
      rfl

/-- Witness for C6 at a concrete hash family and a filter pair with 8
hash functions whose primary bits for item 5 are already set: the check
returns true and feeds the item's secondary bits forward. -/
theorem ffbloom_check_ff_feed_forward_witness :
    (ffbloom_check_ff hW hW ⟨primaryBits hW 8 5, [], 8⟩ 5).2.secondary
      = ([] : List Nat) ++ secondaryBits hW 8 5 ∧
    (ffbloom_check_ff hW hW ⟨primaryBits hW 8 5, [], 8⟩ 5).2.primary = primaryBits hW 8 5 :=
  (ffbloom_check_ff_feed_forward hW hW ⟨primaryBits hW 8 5, [], 8⟩ 5 (by decide)).2.1
    (by decide)

/-- C7.  Short queries are served from the trie, but `search_trie` only
yields end-of-path nodes at exactly the query's length matched from the
root: after adding "/ab", "/abc", "/abd" as ids 0, 1, 2 and committing,
searching "ab" returns the empty set — not the claimed set of all three
ids reachable under the prefix — and searching "ac" also returns the
empty set. -/
theorem short_query_returns_no_prefix_matches (env : SearchEnv) (bound : Nat → Nat)
    (comp : List Nat → List Nat) :
    qfind_search env (scenarioShort env.h bound comp) ⟨qab, 10, 0, 0⟩ = .ok [] ∧
    qfind_search env (scenarioShort env.h bound comp) ⟨qac, 10, 0, 0⟩ = .ok [] ∧
    ([] : List Nat) ≠ [0, 1, 2] := by
  refine ⟨?_, ?_, by decide⟩
  · rw [qfind_search_short env _ _ (by decide) (by decide), scenarioShort_trie]
    rfl
  · rw [qfind_search_short env _ _ (by decide) (by decide), scenarioShort_trie]
    rfl

/-- C9.  The empty query is not rejected: the guard of `qfind_search`
only tests for null pointers and `max_results == 0`, so an empty query
string falls through to the trie path and returns a successful
zero-result answer instead of the claimed `InvalidArgument` error. -/
theorem empty_query_not_rejected (env : SearchEnv) (bound : Nat → Nat)
    (comp : List Nat → List Nat) :
    qfind_search env (scenarioShort env.h bound comp) ⟨[], 10, 0, 0⟩ = .ok [] ∧
    ∀ c : Int, SearchRet.ok ([] : List Nat) ≠ SearchRet.err c := by
  constructor
  · rw [qfind_search_short env _ _ (by decide) (by decide), scenarioShort_trie]
    rfl
  · intro c hcon
    cases hcon

/-- Counterexample to C4 as stated: the short-query trie path of
`qfind_search` applies no permission filter.  With "/a" indexed as id 0
and mode word 0 (readable by nobody but root), a query "/a" by uid 1000
returns id 0 even though `check_file_permission` denies it. -/
theorem permission_filter_counterexample :
    check_file_permission (metaAt statePermA 0) 1000 1000 = false ∧
    (metaAt statePermA 0).id = 0 ∧
    qfind_search envW statePermA ⟨pA, 10, 1000, 1000⟩ = .ok [0] := by
  refine ⟨by decide, by decide, ?_⟩
  decide

/-- C4 (amended to queries long enough to carry a trigram).  For every
query whose trigram set is nonempty, every id whose metadata fails
`check_file_permission` for the query's uid and gid is absent from the
result buffer: such an id never survives the permission/score stage. -/
theorem trigram_search_respects_permission_filter (env : SearchEnv) (st : QfindState)
    (q : Query) (i : Nat) (rs : List Nat)
    (hq : (extract_trigrams q.str).isEmpty = false)
    (hperm : check_file_permission (metaAt st i) q.uid q.gid = false)
    (hrun : qfind_search env st q = .ok rs) :
    i ∉ rs := by
  unfold qfind_search at hrun
  by_cases hm : q.maxResults = 0
  · rw [if_pos hm] at hrun
    cases hrun
  · rw [if_neg hm] at hrun
    rw [if_neg (show ¬ (extract_trigrams q.str).isEmpty = true from by
      rw [hq]
      decide)] at hrun
    by_cases hall : (extract_trigrams q.str).all (fun t => ffbloom_check env.h st.bloom t)
        = true
    · rw [if_pos hall] at hrun
      have hrs : rs = (sortLe env.le
          (scored_stage env st q.uid q.gid (extract_trigrams q.str)
            (gather_candidates env.entropyDecode st
              (ffbloom_get_candidates env.hs st.bloom (extract_trigrams q.str)) []) [])).take
          q.maxResults := by
        cases hrun
        rfl
      rw [hrs]
      intro hmem
      have h1 := List.mem_of_mem_take hmem
      have h2 := (mem_sortLe env.le i _).1 h1
      rcases mem_scored_stage env st q.uid q.gid (extract_trigrams q.str) _ [] i h2 with
        hnil | hok
      · cases hnil
      · rw [hperm] at hok
        cases hok
    · rw [if_neg hall] at hrun
      have hrs : rs = [] := by
        cases hrun
        rfl
      rw [hrs]
      intro hmem
      cases hmem

/-- Witness for the amended C4 at a concrete environment, the freshly
initialized index and the query "abc" by uid 1000. -/
theorem trigram_search_respects_permission_filter_witness :
    qfind_search envW initState ⟨qabc, 10, 1000, 1000⟩ = .ok [] ∧
    (0 : Nat) ∉ ([] : List Nat) :=
  ⟨rfl,
    trigram_search_respects_permission_filter envW initState ⟨qabc, 10, 1000, 1000⟩ 0 []
      (by decide) (by decide) rfl⟩

/-- C5.  The tombstone scenario does not behave as claimed: after
adding "/a/notes.txt", "/b/notes.md", "/c/other.log" as ids 0, 1, 2,
committing, deleting "/b/notes.md" and committing again, a root search
for "notes" returns the empty set — not the claimed set containing id 0.
Whatever the hash family and entropy coder, either some trigram misses
the primary filter (zero results), or the candidate stage consults the
secondary Bloom filter, which nothing in this pipeline ever writes, and
finds no candidate trigram at all; the query stage also contains no
tombstone (`path[0]`) check anywhere. -/
theorem tombstone_scenario_search_empty (env : SearchEnv) (bound : Nat → Nat)
    (comp : List Nat → List Nat) :
    qfind_search env (scenarioTombstone env.h bound comp) ⟨qNotes, 10, 0, 0⟩ = .ok [] ∧
    SearchRet.ok ([] : List Nat) ≠ SearchRet.ok [0] := by
  constructor
  · unfold qfind_search
    rw [if_neg (show ¬ (⟨qNotes, 10, 0, 0⟩ : Query).maxResults = 0 by decide)]
    rw [if_neg (show ¬ (extract_trigrams (⟨qNotes, 10, 0, 0⟩ : Query).str).isEmpty = true by
      decide)]
    by_cases hall : (extract_trigrams (⟨qNotes, 10, 0, 0⟩ : Query).str).all
        (fun t => ffbloom_check env.h (scenarioTombstone env.h bound comp).bloom t) = true
    · rw [if_pos hall]
      rw [get_candidates_secondary_empty env.hs _ (scenarioTombstone_secondary env.h bound comp)
        (by rw [scenarioTombstone_numHash]; decide)]
      rfl
    · rw [if_neg hall]
  · intro hcon
    cases hcon
